import Mathlib

/-!
Verification of the gameflix frame pipelines.

This file gives a shallow embedding of the two pipelines of the repository:

* `FrameExtractor` (src/src/frame_extractor.cpp): opens a video container,
  selects the first video stream, counts its packets to compute a zero-pad
  width, and writes one still-image file per decoded frame.
* `FrameCombiner` (src/src/frame_combiner.cpp): lists the still-image files of
  a directory, decodes each one, rescales it when necessary, assigns
  presentation timestamps, encodes, and writes the container trailer.

Decoder and encoder behaviour that lives inside libav is abstracted by
explicit oracles: a packet carries the list of frames the decoder yields
after it is sent, and the encoder is a FIFO queue with a fixed delay whose
pending packets are only released once more than `delay` of them are queued
(the usual B-frame/lookahead delay of an H.264 encoder).
-/

namespace Gameflix

/-! ## Extractor data model (src/src/frame_extractor.cpp) -/

/-- One stream of an opened container; only its codec type matters to the
extractor (`codecpar->codec_type == AVMEDIA_TYPE_VIDEO`). -/
structure StreamInfo where
  isVideo : Bool
deriving DecidableEq, Repr

/-- An opened input container: the `streams` array of the `AVFormatContext`. -/
structure Container where
  streams : List StreamInfo
deriving DecidableEq, Repr

/-- Loop body of `FrameExtractor::find_video_stream`: scan the streams from
index `k` upward and return the index of the first video stream. -/
def findVideoAux : List StreamInfo → Nat → Option Nat
  | [], _ => none
  | s :: rest, k => if s.isVideo then some k else findVideoAux rest (k + 1)

/-- `FrameExtractor::find_video_stream`: sets `video_stream_index` to the
first video stream's index; when no stream is video the member keeps the
value `-1` it was given in the constructor initialiser list (the function
only logs an error in that case and returns normally). -/
def find_video_stream (c : Container) : Int :=
  match findVideoAux c.streams 0 with
  | some i => (i : Int)
  | none => -1

/-- Validity of the stream-array access
`format_context->streams[video_stream_index]` performed at the start of
`FrameExtractor::init_video_codec`. -/
def initAccessInBounds (c : Container) (idx : Int) : Prop :=
  0 ≤ idx ∧ idx.toNat < c.streams.length

instance (c : Container) (idx : Int) : Decidable (initAccessInBounds c idx) :=
  inferInstanceAs (Decidable (_ ∧ _))

/-- Steps the `FrameExtractor` constructor body can perform. -/
inductive CtorStep
  | openInput
  | findStreamInfo
  | findStream
  | initCodec
deriving DecidableEq, Repr

/-- Control flow of the `FrameExtractor` constructor: it returns early only
when `avformat_open_input` or `avformat_find_stream_info` fails; after a
successful open it always runs `find_video_stream` and then
`init_video_codec`, whatever `find_video_stream` found. -/
def constructorSteps (openOk : Bool) (infoOk : Bool) : List CtorStep :=
  if openOk = false then [CtorStep.openInput]
  else if infoOk = false then [CtorStep.openInput, CtorStep.findStreamInfo]
  else [CtorStep.openInput, CtorStep.findStreamInfo, CtorStep.findStream,
    CtorStep.initCodec]

/-- The members of `FrameExtractor` the claims are about. The constructor
initialiser list sets `video_stream_index = -1` and `frame_count = 0`. -/
structure ExtractorState where
  video_stream_index : Int
  frame_count : Nat
deriving DecidableEq, Repr

/-- State of a `FrameExtractor` right after a successful construction. -/
def mkExtractor (c : Container) : ExtractorState :=
  { video_stream_index := find_video_stream c, frame_count := 0 }

/-! ## Zero-pad width (FrameExtractor::get_leading_zeros) -/

/-- A decoded frame as far as the extractor is concerned: whether
`save_frame_as_image` manages to write its file. -/
structure DFrame where
  saveOk : Bool
deriving DecidableEq, Repr

/-- A demuxed packet: its `stream_index` and the frames
`avcodec_receive_frame` yields right after this packet is sent. -/
structure Packet where
  stream_index : Int
  yields : List DFrame
deriving DecidableEq, Repr

/-- A whole input video: its packet sequence, plus the frames the decoder
still holds when the container is exhausted — frames that only a flush
(a null packet) would release. -/
structure VideoInput where
  packets : List Packet
  eofBuffered : List DFrame
deriving DecidableEq, Repr

/-- The `while (temp /= 10) width += 1;` loop of
`FrameExtractor::get_leading_zeros` (C assigns first, then tests). -/
def widthLoop (temp width : Nat) : Nat :=
  if temp / 10 = 0 then width else widthLoop (temp / 10) (width + 1)
termination_by temp
decreasing_by exact Nat.div_lt_self (by omega) (by omega)

/-- Packet-counting pass of `get_leading_zeros`: `total_frames` counts the
packets whose `stream_index` is the selected video stream. -/
def count_video_packets (idx : Int) (ps : List Packet) : Nat :=
  (ps.filter (fun p => p.stream_index == idx)).length

/-- `FrameExtractor::get_leading_zeros`: count the stream's packets, then run
the width loop starting from `width = 1`. -/
def get_leading_zeros (idx : Int) (ps : List Packet) : Nat :=
  widthLoop (count_video_packets idx ps) 1

theorem widthLoop_eq (n w : Nat) : widthLoop n w = w + Nat.log 10 n := by
  induction n using Nat.strong_induction_on generalizing w with
  | _ n ih =>
    rw [widthLoop]
    by_cases h : n / 10 = 0
    · have hn : n < 10 := by omega
      rw [if_pos h, Nat.log_of_lt hn]
      omega
    · have hn : 10 ≤ n := by
        by_contra hlt
        exact h (Nat.div_eq_of_lt (by omega))
      rw [if_neg h, ih (n / 10) (Nat.div_lt_self (by omega) (by omega))]
      have h1 : Nat.log 10 (n / 10) = Nat.log 10 n - 1 := Nat.log_div_base 10 n
      have h2 : 0 < Nat.log 10 n := Nat.log_pos (by omega) hn
      omega

theorem log_add_one_eq_max_clog (n : Nat) :
    Nat.log 10 n + 1 = max 1 (Nat.clog 10 (n + 1)) := by
  rcases Nat.eq_zero_or_pos n with h0 | hpos
  · subst h0
    simp [Nat.clog_one_right]
  · have hne : n ≠ 0 := by omega
    have hup : Nat.clog 10 (n + 1) ≤ Nat.log 10 n + 1 := by
      have hx : n < 10 ^ (Nat.log 10 n + 1) := Nat.lt_pow_succ_log_self (by omega) n
      exact (Nat.le_pow_iff_clog_le (by omega)).mp (by omega)
    have hlo : Nat.log 10 n + 1 ≤ Nat.clog 10 (n + 1) := by
      have hx : 10 ^ Nat.log 10 n ≤ n := Nat.pow_log_le_self 10 hne
      have := (Nat.pow_lt_iff_lt_clog (b := 10) (by omega)
        (x := n + 1) (y := Nat.log 10 n)).mp (by omega)
      omega
    omega

/-! ## Extractor main pass (FrameExtractor::extract_frames) -/

/-- Zero padding applied by `std::setfill('0') << std::setw(width)`: the
decimal numeral is left-padded with `'0'` only when shorter than `width`. -/
def padZeros (width n : Nat) : String :=
  let s := toString n
  if s.length < width then
    String.mk (List.replicate (width - s.length) '0') ++ s
  else s

/-- Path built by `extract_frames` for one frame:
`output_dir << "/frame_" << setw(width) << frame_count << "_" << this
<< ".png"`. The `inst` argument stands for the formatted `this` pointer. -/
def framePath (dir : String) (width fc : Nat) (inst : String) : String :=
  dir ++ "/frame_" ++ padZeros width fc ++ "_" ++ inst ++ ".png"

/-- Inner `avcodec_receive_frame` loop of `extract_frames`: each received
frame gets a path from the current counter, `save_frame_as_image` is
attempted (a file appears only when it succeeds — on failure it just logs
and returns), and the counter advances either way (`frame_count++` is the
for-loop step, run for every received frame). -/
def emitFiles (dir : String) (width : Nat) (inst : String) :
    List DFrame → Nat → List String
  | [], _ => []
  | f :: fs, fc =>
    (if f.saveOk then [framePath dir width fc inst] else []) ++
      emitFiles dir width inst fs (fc + 1)

/-- Outer `av_read_frame` loop of `extract_frames`: packets of other streams
are dropped, packets of the selected stream are sent to the decoder and the
received frames are saved. `fc` is the local `int frame_count = 0;` declared
inside the function, which shadows the member; the member state `st` is
threaded through untouched. The loop ends when the container is exhausted —
no flush (null) packet is ever sent to the decoder. -/
def extractLoop (st : ExtractorState) (dir : String) (width : Nat)
    (inst : String) : List Packet → Nat → List String × ExtractorState
  | [], _ => ([], st)
  | p :: rest, fc =>
    if p.stream_index == st.video_stream_index then
      let files := emitFiles dir width inst p.yields fc
      let r := extractLoop st dir width inst rest (fc + p.yields.length)
      (files ++ r.1, r.2)
    else extractLoop st dir width inst rest fc

/-- `FrameExtractor::extract_frames`: runs the packet loop with the local
counter starting at 0 and returns the written file paths and the object
state. The decoder's `eofBuffered` frames are never read. -/
def extract_frames (st : ExtractorState) (input : VideoInput) (dir : String)
    (width : Nat) (inst : String) : List String × ExtractorState :=
  extractLoop st dir width inst input.packets 0

/-- Frames the decoder yields across the packets of stream `idx`, in order,
without any flush pass. -/
def yieldsOf (idx : Int) : List Packet → List DFrame
  | [] => []
  | p :: rest => (if p.stream_index == idx then p.yields else []) ++ yieldsOf idx rest

/-- Modelled from the spec: "the number of still images produced by Extractor
equals the number of frames the source decoder yields (flush pass included),
except for units that failed and were skipped." The flush pass the spec
describes would also drain the frames still buffered at end of container. -/
def specFileCount (idx : Int) (input : VideoInput) : Nat :=
  ((yieldsOf idx input.packets) ++ input.eofBuffered).countP (fun f => f.saveOk)

/-- C5: the zero-pad width the pre-pass computes for a stream with `N`
packets (one frame per packet) is `max 1 ⌈log10(N+1)⌉`, the number of
decimal digits of `N` with a minimum of 1. -/
theorem get_leading_zeros_eq_clog (idx : Int) (ps : List Packet) :
    get_leading_zeros idx ps =
      max 1 (Nat.clog 10 (count_video_packets idx ps + 1)) := by
  rw [get_leading_zeros, widthLoop_eq, Nat.add_comm,
    log_add_one_eq_max_clog]

theorem emitFiles_length (dir : String) (width : Nat) (inst : String)
    (fs : List DFrame) (fc : Nat) :
    (emitFiles dir width inst fs fc).length = fs.countP (fun f => f.saveOk) := by
  induction fs generalizing fc with
  | nil => rfl
  | cons f rest ih =>
    rw [emitFiles, List.countP_cons]
    by_cases h : f.saveOk
    · simp [h, ih]
    · simp [h, ih]

theorem extractLoop_state (st : ExtractorState) (dir : String) (width : Nat)
    (inst : String) (ps : List Packet) (fc : Nat) :
    (extractLoop st dir width inst ps fc).2 = st := by
  induction ps generalizing fc with
  | nil => rfl
  | cons p rest ih =>
    rw [extractLoop]
    by_cases h : p.stream_index == st.video_stream_index
    · simp only [h, if_pos]
      exact ih (fc + p.yields.length)
    · simp only [h]
      rw [if_neg (by simp [h])]
      exact ih fc

theorem extractLoop_length (st : ExtractorState) (dir : String) (width : Nat)
    (inst : String) (ps : List Packet) (fc : Nat) :
    (extractLoop st dir width inst ps fc).1.length =
      (yieldsOf st.video_stream_index ps).countP (fun f => f.saveOk) := by
  induction ps generalizing fc with
  | nil => rfl
  | cons p rest ih =>
    rw [extractLoop, yieldsOf]
    by_cases h : p.stream_index == st.video_stream_index
    · simp only [h, if_pos, List.length_append, List.countP_append]
      rw [emitFiles_length, ih]
    · simp only [h]
      rw [if_neg (by simp [h]), ih fc]
      simp

/-- C10: `extract_frames` never changes the `frame_count` member — the
`int frame_count = 0;` inside the function shadows it — so after any run it
still holds the 0 the constructor stored. -/
theorem extract_frames_member_frame_count (st : ExtractorState)
    (c : Container) (input : VideoInput) (dir : String) (width : Nat)
    (inst : String) :
    (extract_frames st input dir width inst).2.frame_count = st.frame_count ∧
      (extract_frames (mkExtractor c) input dir width inst).2.frame_count = 0 := by
  constructor
  · rw [extract_frames, extractLoop_state]
  · rw [extract_frames, extractLoop_state]
    rfl

/-- C3 counterexample: a video whose single packet yields no frame
immediately while one frame stays buffered in the decoder until end of
container. The spec's count (flush pass included) is 1, but the code
performs no flush pass and writes 0 files. -/
theorem extract_frames_no_flush_cex :
    (extract_frames ⟨0, 0⟩ ⟨[⟨0, []⟩], [⟨true⟩]⟩ "out" 1 "0xA").1.length ≠
      specFileCount 0 ⟨[⟨0, []⟩], [⟨true⟩]⟩ := by
  decide

/-- C3 amended: there is no flush pass; the number of files produced equals
the number of frames the decoder yields in response to the container's
packets alone (frames still buffered at end of container are dropped), minus
the frames whose save failed. -/
theorem extract_frames_file_count (st : ExtractorState) (input : VideoInput)
    (dir : String) (width : Nat) (inst : String) :
    (extract_frames st input dir width inst).1.length =
      (yieldsOf st.video_stream_index input.packets).countP
        (fun f => f.saveOk) := by
  rw [extract_frames, extractLoop_length]

/-- C6 counterexample: for a source with exactly one frame the single file
the code writes is `out/frame_0_0xA.png` — the formatted `this` pointer sits
between the index and the extension — not the `out/frame_0.png` the claim
names. -/
theorem get_leading_zeros_one_packet :
    get_leading_zeros 0 [⟨0, [⟨true⟩]⟩] = 1 := by
  rw [get_leading_zeros, widthLoop_eq]
  have hc : count_video_packets 0 [⟨0, [⟨true⟩]⟩] = 1 := rfl
  rw [hc, Nat.log_of_lt (by omega)]

theorem extract_frames_name_cex :
    (extract_frames ⟨0, 0⟩ ⟨[⟨0, [⟨true⟩]⟩], []⟩ "out"
        (get_leading_zeros 0 [⟨0, [⟨true⟩]⟩]) "0xA").1 =
      ["out/frame_0_0xA.png"] ∧
      ("out/frame_0_0xA.png" : String) ≠ "out/frame_0.png" := by
  constructor
  · rw [get_leading_zeros_one_packet]
    rfl
  · decide

/-- C6 amended: each file is named prefix, zero-padded index, an underscore
and the extractor's formatted `this` pointer, then the extension; a 1-frame
video yields exactly one file `frame_0_<this>.png` (width 1). -/
theorem extract_frames_one_frame_name (dir inst : String) :
    (extract_frames ⟨0, 0⟩ ⟨[⟨0, [⟨true⟩]⟩], []⟩ dir
        (get_leading_zeros 0 [⟨0, [⟨true⟩]⟩]) inst).1 =
      [framePath dir 1 0 inst] ∧ padZeros 1 0 = "0" := by
  constructor
  · rw [get_leading_zeros_one_packet]
    rfl
  · rfl

/-- C7: on a container with no video stream the constructor does not abort.
`find_video_stream` merely logs and leaves `video_stream_index = -1`; the
constructor still runs `init_video_codec`, whose stream-array access
`streams[video_stream_index]` is then out of bounds. -/
theorem constructor_no_video_stream :
    CtorStep.initCodec ∈ constructorSteps true true ∧
      find_video_stream ⟨[⟨false⟩]⟩ = -1 ∧
      ¬ initAccessInBounds ⟨[⟨false⟩]⟩ (find_video_stream ⟨[⟨false⟩]⟩) := by
  decide

theorem findVideoAux_some {l : List StreamInfo} {k i : Nat}
    (h : findVideoAux l k = some i) :
    i < k + l.length ∧ (l.any fun s => s.isVideo) = true := by
  induction l generalizing k with
  | nil => simp [findVideoAux] at h
  | cons s rest ih =>
    rw [findVideoAux] at h
    by_cases hv : s.isVideo
    · rw [if_pos hv] at h
      obtain rfl : k = i := Option.some.inj h
      refine ⟨by simp, by simp [hv]⟩
    · rw [if_neg hv] at h
      have hr := ih h
      refine ⟨by simp at hr ⊢; omega, by simp [List.any_cons, hr.2]⟩

theorem findVideoAux_none {l : List StreamInfo} {k : Nat}
    (h : findVideoAux l k = none) : (l.any fun s => s.isVideo) = false := by
  induction l generalizing k with
  | nil => simp
  | cons s rest ih =>
    rw [findVideoAux] at h
    by_cases hv : s.isVideo
    · rw [if_pos hv] at h
      exact absurd h (by simp)
    · rw [if_neg hv] at h
      simp [List.any_cons, hv, ih h]

/-- C8: the stream-array access of `init_video_codec` is in bounds exactly
when the container has a video stream; when it has none,
`find_video_stream` leaves the index at `-1`, with which `init_video_codec`
still indexes the array, out of bounds. -/
theorem init_video_codec_access (c : Container) :
    (initAccessInBounds c (find_video_stream c) ↔
      (c.streams.any fun s => s.isVideo) = true) ∧
      ((c.streams.any fun s => s.isVideo) = false →
        find_video_stream c = -1) := by
  refine ⟨⟨?_, ?_⟩, ?_⟩
  · intro hin
    cases h : findVideoAux c.streams 0 with
    | none =>
      rw [find_video_stream, h] at hin
      exact absurd hin.1 (by norm_num)
    | some i => exact (findVideoAux_some h).2
  · intro _
    cases h : findVideoAux c.streams 0 with
    | some i =>
      rw [find_video_stream, h]
      have hb := (findVideoAux_some h).1
      exact ⟨Int.ofNat_nonneg i, by simpa using (by omega : i < c.streams.length)⟩
    | none =>
      rw [findVideoAux_none h] at *
      simp_all
  · intro hany
    cases h : findVideoAux c.streams 0 with
    | some i =>
      rw [(findVideoAux_some h).2] at hany
      exact absurd hany (by simp)
    | none => rw [find_video_stream, h]

/-- Witness for C8 at two concrete containers: a video-less container leaves
the index at `-1`, and a container whose only stream is video gives an
in-bounds access. -/
theorem init_video_codec_access_witness :
    find_video_stream ⟨[⟨false⟩]⟩ = -1 ∧
      initAccessInBounds ⟨[⟨true⟩]⟩ (find_video_stream ⟨[⟨true⟩]⟩) :=
  ⟨(init_video_codec_access ⟨[⟨false⟩]⟩).2 (by decide),
   (init_video_codec_access ⟨[⟨true⟩]⟩).1.mpr (by decide)⟩

/-! ## Combiner data model (src/src/frame_combiner.cpp) -/

/-- A raw decoded frame as the combiner sees it: resolution, pixel format
(the ffmpeg enum value, `AV_PIX_FMT_YUV420P = 0`) and its plane content,
abstracted as one value. -/
structure CFrame where
  width : Nat
  height : Nat
  pixFmt : Nat
  data : Nat
deriving DecidableEq, Repr

/-- The encoder codec context fields `rescale_frame_if_necessary` and
`convert_pixel_format` consult. -/
structure CodecCtx where
  width : Nat
  height : Nat
  pixFmt : Nat
deriving DecidableEq, Repr

/-- The fixed configuration `setup_video_codec` installs: 1920x1080,
`AV_PIX_FMT_YUV420P`. -/
def targetCtx : CodecCtx := { width := 1920, height := 1080, pixFmt := 0 }

/-- Success of the allocation calls (`av_frame_alloc` /
`av_frame_get_buffer`) and of `sws_getContext` during one rescale. -/
structure RescaleEnv where
  allocOk : Bool
  swsOk : Bool
deriving DecidableEq, Repr

/-- `FrameCombiner::is_frame_size_matching`: compares width and height with
the codec context — and nothing else; the pixel format is not consulted. -/
def is_frame_size_matching (ctx : CodecCtx) (f : CFrame) : Bool :=
  f.width == ctx.width && f.height == ctx.height

/-- `FrameCombiner::rescale_frame_if_necessary`: when the size matches, the
input frame is returned as is; otherwise a frame at the codec context's
resolution and pixel format is produced from the same source content
(`allocate_rescaled_frame` + `init_rescaled_frame` + `scale_frame`), or
`none` when allocation or the sws context fails — the original frame is
freed on every one of those paths. -/
def rescale_frame_if_necessary (env : RescaleEnv) (ctx : CodecCtx)
    (f : CFrame) : Option CFrame :=
  if is_frame_size_matching ctx f then some f
  else if env.allocOk = false then none
  else if env.swsOk = false then none
  else some ⟨ctx.width, ctx.height, ctx.pixFmt, f.data⟩

/-- `FrameCombiner::convert_pixel_format`: keeps the frame's resolution and
converts its content to the codec context's pixel format; fails when
allocation or the sws context fails. -/
def convert_pixel_format (env : RescaleEnv) (ctx : CodecCtx) (f : CFrame) :
    Option CFrame :=
  if env.allocOk = false then none
  else if env.swsOk = false then none
  else some ⟨f.width, f.height, ctx.pixFmt, f.data⟩

/-! ## Combiner run trace -/

/-- The encoder session: frames sent are queued (identified by their pts);
`avcodec_receive_packet` only releases a packet while more than `delay`
are pending — the B-frame/lookahead delay — and the rest would only come
out of a flush. -/
structure Encoder where
  delay : Nat
  queue : List Nat
deriving DecidableEq, Repr

/-- `avcodec_send_frame` with a real frame: the frame joins the queue. -/
def Encoder.send (e : Encoder) (pts : Nat) : Encoder :=
  { e with queue := e.queue ++ [pts] }

/-- The `while (avcodec_receive_packet(...) == 0)` drain loop of
`encode_and_write_frame`: releases pending packets in order while more than
`delay` are pending, and returns them with the encoder's new state. -/
def Encoder.drain (e : Encoder) : List Nat × Encoder :=
  (e.queue.take (e.queue.length - e.delay),
    { e with queue := e.queue.drop (e.queue.length - e.delay) })

/-- Observable events of one combiner run. -/
inductive Ev
  | sentFrame (pts : Nat)
  | sentNull
  | wrote (pts : Nat)
  | trailer
deriving DecidableEq, Repr

/-- Outcome of handling one still-image file inside
`convert_pngs_to_frames`: `decodeFail` is `convert_png_to_av_frame`
returning null, `rescaleFail` is `rescale_frame_if_necessary` returning
null, `writeFail` is `encode_and_write_frame` returning false (its
`avcodec_send_frame` call rejected the frame), `ok` is full success. -/
inductive PngResult
  | decodeFail
  | rescaleFail
  | writeFail
  | ok
deriving DecidableEq, Repr

/-- `FrameCombiner::convert_pngs_to_frames`: `i` is the local
`unsigned int i = 0;`. A decode or rescale failure hits `continue` before
`frame->pts = i++;`, so `i` is untouched. Otherwise the pts is assigned
and `i` incremented — before `encode_and_write_frame` runs — and the frame
is sent to the encoder; a write failure also just continues the loop. -/
def convertLoop (outcome : String → PngResult) (enc : Encoder) :
    List String → Nat → List Ev × Encoder × Nat
  | [], i => ([], enc, i)
  | f :: rest, i =>
    match outcome f with
    | PngResult.decodeFail => convertLoop outcome enc rest i
    | PngResult.rescaleFail => convertLoop outcome enc rest i
    | PngResult.writeFail =>
      let r := convertLoop outcome enc rest (i + 1)
      (Ev.sentFrame i :: r.1, r.2)
    | PngResult.ok =>
      let step := (enc.send i).drain
      let r := convertLoop outcome step.2 rest (i + 1)
      (Ev.sentFrame i :: (step.1.map Ev.wrote ++ r.1), r.2)

/-- `FrameCombiner::process_frames`: iterates the `frames` member; a frame
whose pixel format differs is converted first (failure returns from the
whole function), then pts `i` is assigned and the frame encoded (an
encode-and-write failure also returns from the whole function). -/
def processLoop (env : RescaleEnv) (sendOk : Bool) (ctx : CodecCtx)
    (enc : Encoder) : List CFrame → Nat → List Ev × Encoder
  | [], _ => ([], enc)
  | f :: rest, i =>
    match (if f.pixFmt == ctx.pixFmt then some f
      else convert_pixel_format env ctx f) with
    | none => ([], enc)
    | some _ =>
      if sendOk then
        let step := (enc.send i).drain
        let r := processLoop env sendOk ctx step.2 rest (i + 1)
        (Ev.sentFrame i :: (step.1.map Ev.wrote ++ r.1), r.2)
      else ([Ev.sentFrame i], enc)

/-- Membership test `entry.path().extension() == ".png"`, abstracted as a
suffix check on the file name's characters. -/
def hasPngExt (f : String) : Bool :=
  decide (4 ≤ f.data.length) && f.data.drop (f.data.length - 4) == ".png".data

/-- Lexicographic comparison on the names' characters, the order
`std::sort` applies to `png_files`. -/
def charListLe : List Char → List Char → Bool
  | [], _ => true
  | _ :: _, [] => false
  | x :: xs, y :: ys =>
    if x.val < y.val then true
    else if y.val < x.val then false
    else charListLe xs ys

/-- Insertion step of the sort of `get_png_files_in_dir`. -/
def insertSorted (x : String) : List String → List String
  | [] => [x]
  | y :: ys =>
    if charListLe x.data y.data then x :: y :: ys else y :: insertSorted x ys

/-- The `std::sort(png_files.begin(), png_files.end())` call. -/
def sortStrings : List String → List String
  | [] => []
  | x :: xs => insertSorted x (sortStrings xs)

/-- The members of `FrameCombiner` the claims are about. -/
structure CombinerState where
  png_dir : String
  frames : List CFrame
  png_files : List String
deriving DecidableEq, Repr

/-- The `FrameCombiner` constructor: `frames()` and `png_files()` start
empty. -/
def mkCombiner (dir : String) : CombinerState :=
  { png_dir := dir, frames := [], png_files := [] }

/-- `FrameCombiner::get_png_files_in_dir`: non-recursive listing filtered by
the `.png` extension, then sorted; only `png_files` is assigned. -/
def get_png_files_in_dir (listing : List String) (s : CombinerState) :
    CombinerState :=
  { s with png_files := sortStrings (listing.filter hasPngExt) }

/-- `FrameCombiner::combine_frames_to_video`: set up the codec and output
(abstracted into the starting encoder `enc`), list the directory, run
`convert_pngs_to_frames` over the sorted files, run `process_frames` over
the `frames` member, then `write_trailer`. No flush — no null frame — is
ever sent to the encoder before the trailer. -/
def combine_frames_to_video (env : RescaleEnv) (sendOk : Bool)
    (outcome : String → PngResult) (enc : Encoder) (listing : List String)
    (s : CombinerState) : List Ev × Encoder × CombinerState :=
  let s1 := get_png_files_in_dir listing s
  let c := convertLoop outcome enc s1.png_files 0
  let p := processLoop env sendOk targetCtx c.2.1 s1.frames 0
  (c.1 ++ p.1 ++ [Ev.trailer], p.2, s1)

/-- Presentation timestamps of the frames sent to the encoder, in order. -/
def sentPts (evs : List Ev) : List Nat :=
  evs.filterMap fun e =>
    match e with
    | Ev.sentFrame p => some p
    | _ => none

/-- Presentation timestamps of the packets written to the container, in
order. -/
def writtenPts (evs : List Ev) : List Nat :=
  evs.filterMap fun e =>
    match e with
    | Ev.wrote p => some p
    | _ => none

/-- Number of files that get past decode and rescale — exactly the ones
that receive a pts and are sent to the encoder. -/
def countSent (outcome : String → PngResult) (files : List String) : Nat :=
  files.countP fun f =>
    match outcome f with
    | PngResult.decodeFail => false
    | PngResult.rescaleFail => false
    | _ => true

/-- Timestamps of the fully successful units: the pts values the encoder
actually accepts into its queue. -/
def okPtsFrom (outcome : String → PngResult) :
    List String → Nat → List Nat
  | [], _ => []
  | f :: rest, i =>
    match outcome f with
    | PngResult.decodeFail => okPtsFrom outcome rest i
    | PngResult.rescaleFail => okPtsFrom outcome rest i
    | PngResult.writeFail => okPtsFrom outcome rest (i + 1)
    | PngResult.ok => i :: okPtsFrom outcome rest (i + 1)

theorem sentPts_append (a b : List Ev) :
    sentPts (a ++ b) = sentPts a ++ sentPts b := by
  simp [sentPts, List.filterMap_append]

theorem writtenPts_append (a b : List Ev) :
    writtenPts (a ++ b) = writtenPts a ++ writtenPts b := by
  simp [writtenPts, List.filterMap_append]

theorem sentPts_wrote_map (l : List Nat) : sentPts (l.map Ev.wrote) = [] := by
  induction l with
  | nil => rfl
  | cons x xs ih => simp [sentPts, ih]

theorem writtenPts_wrote_map (l : List Nat) :
    writtenPts (l.map Ev.wrote) = l := by
  induction l with
  | nil => rfl
  | cons x xs ih => simpa [writtenPts] using ih

theorem sentPts_cons_sentFrame (p : Nat) (l : List Ev) :
    sentPts (Ev.sentFrame p :: l) = p :: sentPts l := rfl

theorem writtenPts_cons_sentFrame (p : Nat) (l : List Ev) :
    writtenPts (Ev.sentFrame p :: l) = writtenPts l := rfl

theorem convertLoop_sentPts (outcome : String → PngResult) (enc : Encoder)
    (files : List String) (i : Nat) :
    sentPts (convertLoop outcome enc files i).1 =
      List.range' i (countSent outcome files) := by
  induction files generalizing enc i with
  | nil => rfl
  | cons f rest ih =>
    cases h : outcome f with
    | decodeFail =>
      simp only [convertLoop, h]
      rw [ih]
      simp [countSent, List.countP_cons, h]
    | rescaleFail =>
      simp only [convertLoop, h]
      rw [ih]
      simp [countSent, List.countP_cons, h]
    | writeFail =>
      have hc : countSent outcome (f :: rest) = countSent outcome rest + 1 := by
        simp [countSent, List.countP_cons, h]
      simp only [convertLoop, h]
      rw [sentPts_cons_sentFrame, ih, hc, List.range'_succ]
    | ok =>
      have hc : countSent outcome (f :: rest) = countSent outcome rest + 1 := by
        simp [countSent, List.countP_cons, h]
      simp only [convertLoop, h]
      rw [sentPts_cons_sentFrame, sentPts_append, sentPts_wrote_map,
        List.nil_append, ih, hc, List.range'_succ]

theorem convertLoop_index (outcome : String → PngResult) (enc : Encoder)
    (files : List String) (i : Nat) :
    (convertLoop outcome enc files i).2.2 = i + countSent outcome files := by
  induction files generalizing enc i with
  | nil => simp [convertLoop, countSent]
  | cons f rest ih =>
    cases h : outcome f with
    | decodeFail => simp [convertLoop, h, countSent, List.countP_cons, ih]
    | rescaleFail => simp [convertLoop, h, countSent, List.countP_cons, ih]
    | writeFail =>
      simp [convertLoop, h, countSent, List.countP_cons, ih]
      omega
    | ok =>
      simp [convertLoop, h, countSent, List.countP_cons, ih]
      omega

theorem convertLoop_written (outcome : String → PngResult) (enc : Encoder)
    (files : List String) (i : Nat) :
    writtenPts (convertLoop outcome enc files i).1 ++
        (convertLoop outcome enc files i).2.1.queue =
      enc.queue ++ okPtsFrom outcome files i := by
  induction files generalizing enc i with
  | nil => simp [convertLoop, okPtsFrom, writtenPts]
  | cons f rest ih =>
    cases h : outcome f with
    | decodeFail => simp [convertLoop, h, okPtsFrom, ih]
    | rescaleFail => simp [convertLoop, h, okPtsFrom, ih]
    | writeFail =>
      simp only [convertLoop, h, okPtsFrom]
      rw [writtenPts_cons_sentFrame, ih]
    | ok =>
      simp only [convertLoop, h, okPtsFrom]
      rw [writtenPts_cons_sentFrame, writtenPts_append, writtenPts_wrote_map,
        List.append_assoc, ih, ← List.append_assoc]
      show ((enc.send i).queue.take _ ++ (enc.send i).queue.drop _) ++ _ = _
      rw [List.take_append_drop]
      simp [Encoder.send]

theorem convertLoop_noNull (outcome : String → PngResult) (enc : Encoder)
    (files : List String) (i : Nat) :
    Ev.sentNull ∉ (convertLoop outcome enc files i).1 := by
  induction files generalizing enc i with
  | nil => simp [convertLoop]
  | cons f rest ih =>
    cases h : outcome f with
    | decodeFail => simpa [convertLoop, h] using ih enc i
    | rescaleFail => simpa [convertLoop, h] using ih enc i
    | writeFail => simp [convertLoop, h, ih]
    | ok =>
      simp [convertLoop, h, List.mem_append, List.mem_map, ih]

theorem combine_run_eq (env : RescaleEnv) (sendOk : Bool)
    (outcome : String → PngResult) (enc : Encoder) (listing : List String)
    (dir : String) :
    combine_frames_to_video env sendOk outcome enc listing (mkCombiner dir) =
      ((convertLoop outcome enc
          (sortStrings (listing.filter hasPngExt)) 0).1 ++ [Ev.trailer],
        (convertLoop outcome enc
          (sortStrings (listing.filter hasPngExt)) 0).2.1,
        ⟨dir, [], sortStrings (listing.filter hasPngExt)⟩) := by
  simp [combine_frames_to_video, get_png_files_in_dir, mkCombiner,
    processLoop]

/-- C9: nothing ever appends to the `frames` member, so after a whole run it
is still the empty vector the constructor made, `process_frames` iterates
zero times, and every event of the run before the trailer comes from
`convert_pngs_to_frames` alone. -/
theorem combiner_frames_member_empty (env : RescaleEnv) (sendOk : Bool)
    (outcome : String → PngResult) (enc : Encoder) (listing : List String)
    (dir : String) :
    (combine_frames_to_video env sendOk outcome enc listing
        (mkCombiner dir)).2.2.frames = [] ∧
      (combine_frames_to_video env sendOk outcome enc listing
          (mkCombiner dir)).1 =
        (convertLoop outcome enc
          (sortStrings (listing.filter hasPngExt)) 0).1 ++ [Ev.trailer] := by
  rw [combine_run_eq]
  exact ⟨rfl, rfl⟩

/-- C1 counterexample: `a.png` passes decode and rescale but its
encode-and-write fails, `b.png` fully succeeds. Frames with pts 0 and 1 are
sent while only one unit is successfully written — and it got pts 1, not 0:
the index advanced for the skipped unit, so the final index 2 differs from
the number of successfully processed units. -/
theorem convert_pngs_pts_skip_cex :
    sentPts (convertLoop
        (fun f => if f == "a.png" then PngResult.writeFail else PngResult.ok)
        ⟨0, []⟩ ["a.png", "b.png"] 0).1 = [0, 1] ∧
      okPtsFrom
        (fun f => if f == "a.png" then PngResult.writeFail else PngResult.ok)
        ["a.png", "b.png"] 0 = [1] ∧
      (convertLoop
        (fun f => if f == "a.png" then PngResult.writeFail else PngResult.ok)
        ⟨0, []⟩ ["a.png", "b.png"] 0).2.2 ≠
        (okPtsFrom
          (fun f => if f == "a.png" then PngResult.writeFail else PngResult.ok)
          ["a.png", "b.png"] 0).length := by
  decide

/-- C1 amended: the pts values assigned to the frames sent to the encoder
are exactly 0, 1, 2, … — strictly increasing by 1 from 0 with no gaps — and
the index advances exactly once per unit that passes decode and rescale,
whether or not its encode-and-write then succeeds; units skipped at decode
or rescale never advance it. -/
theorem convert_pngs_pts_sequence (env : RescaleEnv) (sendOk : Bool)
    (outcome : String → PngResult) (enc : Encoder) (listing : List String)
    (dir : String) :
    sentPts (combine_frames_to_video env sendOk outcome enc listing
        (mkCombiner dir)).1 =
      List.range (countSent outcome (sortStrings (listing.filter hasPngExt))) ∧
      (convertLoop outcome enc (sortStrings (listing.filter hasPngExt)) 0).2.2 =
        countSent outcome (sortStrings (listing.filter hasPngExt)) := by
  constructor
  · rw [combine_run_eq, sentPts_append, convertLoop_sentPts,
      List.range_eq_range']
    simp [sentPts]
  · rw [convertLoop_index]
    omega

/-- C2 counterexample: one successfully processed file and an encoder with
delay 1 — the run sends no null frame, and the packet for pts 0 is still
buffered in the encoder when the trailer is written; it is never written. -/
theorem combiner_flush_missing_cex :
    Ev.sentNull ∉ (combine_frames_to_video ⟨true, true⟩ true
        (fun _ => PngResult.ok) ⟨1, []⟩ ["a.png"] (mkCombiner "d")).1 ∧
      (combine_frames_to_video ⟨true, true⟩ true (fun _ => PngResult.ok)
        ⟨1, []⟩ ["a.png"] (mkCombiner "d")).2.1.queue = [0] ∧
      writtenPts (combine_frames_to_video ⟨true, true⟩ true
        (fun _ => PngResult.ok) ⟨1, []⟩ ["a.png"] (mkCombiner "d")).1 = [] := by
  decide

/-- C2 amended: no flush happens. A combiner run never sends a null frame to
the encoder, the trailer is written directly after the two processing loops,
and the packets written to the container are exactly the ones the per-frame
drains released: what the encoder still buffers at trailer time is never
written. -/
theorem combiner_no_flush_before_trailer (env : RescaleEnv) (sendOk : Bool)
    (outcome : String → PngResult) (enc : Encoder) (listing : List String)
    (dir : String) :
    Ev.sentNull ∉ (combine_frames_to_video env sendOk outcome enc listing
        (mkCombiner dir)).1 ∧
      (combine_frames_to_video env sendOk outcome enc listing
          (mkCombiner dir)).1 =
        (convertLoop outcome enc
          (sortStrings (listing.filter hasPngExt)) 0).1 ++ [Ev.trailer] ∧
      writtenPts (combine_frames_to_video env sendOk outcome enc listing
          (mkCombiner dir)).1 ++
        (combine_frames_to_video env sendOk outcome enc listing
          (mkCombiner dir)).2.1.queue =
        enc.queue ++
          okPtsFrom outcome (sortStrings (listing.filter hasPngExt)) 0 := by
  rw [combine_run_eq]
  refine ⟨?_, rfl, ?_⟩
  · simp only [List.mem_append]
    rintro (hmem | hmem)
    · exact convertLoop_noNull _ _ _ _ hmem
    · simp at hmem
  · rw [writtenPts_append]
    have ht : writtenPts [Ev.trailer] = [] := rfl
    rw [ht, List.append_nil]
    exact convertLoop_written _ _ _ _

/-- C4 counterexample: a frame already at the target resolution but with a
different pixel format is returned unchanged — `is_frame_size_matching`
never consults the pixel format — contradicting "unchanged exactly when the
resolution and pixel format both equal the target". -/
theorem rescale_frame_pixfmt_cex :
    rescale_frame_if_necessary ⟨true, true⟩ targetCtx ⟨1920, 1080, 99, 5⟩ =
        some ⟨1920, 1080, 99, 5⟩ ∧
      (⟨1920, 1080, 99, 5⟩ : CFrame).pixFmt ≠ targetCtx.pixFmt := by
  decide

/-- C4 amended: `rescale_frame_if_necessary` returns the frame unchanged
exactly when its resolution matches the target — the pixel format is not
part of the check; otherwise any frame it returns is a new one at the
target resolution and pixel format. It is idempotent: a returned frame is
always returned unchanged by a second application. -/
theorem rescale_frame_reconcile (env : RescaleEnv) (ctx : CodecCtx)
    (f : CFrame) :
    (is_frame_size_matching ctx f = true →
      rescale_frame_if_necessary env ctx f = some f) ∧
      (is_frame_size_matching ctx f = false →
        ∀ g, rescale_frame_if_necessary env ctx f = some g →
          g.width = ctx.width ∧ g.height = ctx.height ∧
            g.pixFmt = ctx.pixFmt ∧ g ≠ f) ∧
      (∀ g, rescale_frame_if_necessary env ctx f = some g →
        ∀ env2 : RescaleEnv, rescale_frame_if_necessary env2 ctx g = some g) := by
  refine ⟨?_, ?_, ?_⟩
  · intro h
    rw [rescale_frame_if_necessary, if_pos h]
  · intro h g hg
    rw [rescale_frame_if_necessary, if_neg (by simp [h])] at hg
    by_cases ha : env.allocOk
    · by_cases hs : env.swsOk
      · simp only [ha, hs] at hg
        simp only [Bool.true_eq_false, if_false] at hg
        obtain rfl : (⟨ctx.width, ctx.height, ctx.pixFmt, f.data⟩ : CFrame) = g :=
          Option.some.inj hg
        refine ⟨rfl, rfl, rfl, ?_⟩
        intro hgf
        have hw : f.width = ctx.width := by rw [← hgf]
        have hh : f.height = ctx.height := by rw [← hgf]
        simp [is_frame_size_matching, hw, hh] at h
      · simp [ha, hs] at hg
    · simp [ha] at hg
  · intro g hg env2
    by_cases h : is_frame_size_matching ctx f
    · rw [rescale_frame_if_necessary, if_pos h] at hg
      obtain rfl : f = g := Option.some.inj hg
      rw [rescale_frame_if_necessary, if_pos h]
    · rw [rescale_frame_if_necessary,
        if_neg (by simp [Bool.of_not_eq_true h])] at hg
      by_cases ha : env.allocOk
      · by_cases hs : env.swsOk
        · simp only [ha, hs, Bool.true_eq_false, if_false] at hg
          obtain rfl : (⟨ctx.width, ctx.height, ctx.pixFmt, f.data⟩ : CFrame) = g :=
            Option.some.inj hg
          rw [rescale_frame_if_necessary,
            if_pos (by simp [is_frame_size_matching])]
        · simp [ha, hs] at hg
      · simp [ha] at hg

/-- Witness for C4 at concrete frames: a frame already at 1920x1080 is
returned unchanged, and the frame produced by rescaling a 640x480 frame is
itself a fixed point of a second application, even under an environment in
which every allocation fails. -/
theorem rescale_frame_reconcile_witness :
    rescale_frame_if_necessary ⟨true, true⟩ targetCtx ⟨1920, 1080, 0, 3⟩ =
        some ⟨1920, 1080, 0, 3⟩ ∧
      rescale_frame_if_necessary ⟨false, false⟩ targetCtx ⟨1920, 1080, 0, 7⟩ =
        some ⟨1920, 1080, 0, 7⟩ :=
  ⟨(rescale_frame_reconcile ⟨true, true⟩ targetCtx ⟨1920, 1080, 0, 3⟩).1
      (by decide),
    (rescale_frame_reconcile ⟨true, true⟩ targetCtx ⟨640, 480, 2, 7⟩).2.2
      ⟨1920, 1080, 0, 7⟩ (by decide) ⟨false, false⟩⟩

end Gameflix
